import Mathlib

/-!
Verification of the notification-microservices API gateway against its
natural-language specification.  The definitions below are a shallow
embedding of the TypeScript sources: the rate-limiter storage service
(CustomRedisStorageService.increment), the JWT helper
(extractTokenFromRequest / validateToken call sites), the proxy
middleware (ProxyMiddleware.use) together with the route registration in
main.ts, the response interceptor (ResponseInterceptor.intercept) and the
outermost exception filter (HttpExceptionFilter.catch).
-/

/-! ## Rate limiter: CustomRedisStorageService

The service keeps, per rate-limit key, two Redis entries: a counter
(created by INCR, given an expiry on its first hit) and a block entry
(SET with EX blockDuration once the limit is exceeded).  We model the
slice of the Redis keyspace belonging to one rate-limit key as a small
store holding the counter entry and the block entry, plus an explicit
current time in seconds.  Redis TTL semantics: TTL of a missing or
expired entry is -2, of an entry without expiry -1, otherwise the
remaining seconds.  An expired entry behaves exactly like a missing one.
-/

/-- The record returned by CustomRedisStorageService.increment,
mirroring the ThrottlerStorageRecord interface field for field. -/
structure ThrottlerStorageRecord where
  totalHits : Nat
  timeToExpire : Int
  blockDuration : Nat
  key : String
  limit : Nat
  isBlocked : Bool
  timeToBlockExpire : Int
  deriving Repr, DecidableEq

/-- A counter entry in the store: the INCR value, and the absolute
expiry instant once EXPIRE has been applied (INCR alone creates the
entry without an expiry). -/
structure CounterEntry where
  value : Nat
  expiresAt : Option Nat
  deriving Repr, DecidableEq

/-- The slice of the shared store belonging to one rate-limit key: the
counter entry and the absolute expiry instant of the block entry. -/
structure Store where
  counter : Option CounterEntry
  blockExpiresAt : Option Nat
  deriving Repr, DecidableEq

/-- The store with neither a CounterRecord nor a BlockRecord. -/
def Store.empty : Store := ⟨none, none⟩

/-- Redis TTL of the block entry at instant `now`: remaining seconds if
present and unexpired, -2 otherwise. -/
def Store.blockTtl (s : Store) (now : Nat) : Int :=
  match s.blockExpiresAt with
  | none => -2
  | some e => if now < e then (e : Int) - (now : Int) else -2

/-- The counter entry as Redis sees it at instant `now`: an expired
entry has been deleted, so it reads as missing. -/
def Store.counterLive (s : Store) (now : Nat) : Option CounterEntry :=
  match s.counter with
  | none => none
  | some c =>
    match c.expiresAt with
    | none => some c
    | some e => if now < e then some c else none

/-- Redis TTL of the counter entry at instant `now`: -2 if missing or
expired, -1 if present without expiry, else the remaining seconds. -/
def Store.counterTtl (s : Store) (now : Nat) : Int :=
  match s.counter with
  | none => -2
  | some c =>
    match c.expiresAt with
    | none => -1
    | some e => if now < e then (e : Int) - (now : Int) else -2

/-- CustomRedisStorageService.increment, translated step for step from
the source: (1) if the block entry has positive TTL, return a blocked
record at once and touch nothing; (2) INCR the counter, an expired or
missing entry restarting at 1; (3) if the INCR result is exactly 1, set
the counter expiry to `now + ttl`; (4) read the counter TTL; (5) if the
count exceeds the limit, SET the block entry with expiry
`now + blockDuration` and return a blocked record; (6) otherwise return
an unblocked record. -/
def increment (s : Store) (now : Nat) (key : String) (ttl limit blockDuration : Nat) :
    ThrottlerStorageRecord × Store :=
  let blockedTtl := s.blockTtl now
  if blockedTtl > 0 then
    (⟨limit, 0, blockDuration, key, limit, true, blockedTtl⟩, s)
  else
    let requests :=
      match s.counterLive now with
      | none => 1
      | some c => c.value + 1
    let keptExpiry :=
      match s.counterLive now with
      | none => none
      | some c => c.expiresAt
    let s1 : Store :=
      if requests = 1 then
        { s with counter := some ⟨requests, some (now + ttl)⟩ }
      else
        { s with counter := some ⟨requests, keptExpiry⟩ }
    let timeToExpire := s1.counterTtl now
    if requests > limit then
      (⟨requests, timeToExpire, blockDuration, key, limit, true, (blockDuration : Int)⟩,
        { s1 with blockExpiresAt := some (now + blockDuration) })
    else
      (⟨requests, timeToExpire, blockDuration, key, limit, false, 0⟩, s1)

/-! ## API gateway: JWT helper, proxy middleware and route table

We embed the per-request control flow that main.ts installs for each
proxy route: extract a bearer token, validate it (the signature check
itself is an external oracle `verify`), attach the user, then run the
proxy function from ProxyMiddleware.use, which either falls through to
the next middleware, rejects with 401, or forwards with the headers
built by proxyReqOptDecorator.  Fresh uuidv4 values are supplied as
explicit parameters of the notifications route. -/

/-- A Node header value: a single string or an array of strings. -/
inductive HeaderValue where
  | str (s : String)
  | arr (xs : List String)
  deriving Repr, DecidableEq

/-- JavaScript truthiness of a header value: the empty string is falsy,
every array (even empty) is truthy. -/
def HeaderValue.jsTruthy : HeaderValue → Bool
  | .str s => s ≠ ""
  | .arr _ => true

/-- `s.startsWith(p)` over the character lists (the built-in String
functions on Substring positions do not reduce definitionally, so the
JS string operations are modelled on List Char). -/
def beginsWith : List Char → List Char → Bool
  | _, [] => true
  | [], _ :: _ => false
  | a :: s, b :: p => a = b && beginsWith s p

/-- JS `s.startsWith(p)`. -/
def jsStartsWith (s p : String) : Bool := beginsWith s.toList p.toList

/-- Whether `sub` occurs contiguously in `s`. -/
def hasInfix (s sub : List Char) : Bool :=
  beginsWith s sub ||
    match s with
    | [] => false
    | _ :: t => hasInfix t sub

/-- JS `s.includes(sub)`. -/
def jsIncludes (s sub : String) : Bool := hasInfix s.toList sub.toList

/-- JS `s.trim()`: strip leading and trailing whitespace. -/
def jsTrim (s : String) : String :=
  String.mk (((s.toList.dropWhile Char.isWhitespace).reverse.dropWhile
    Char.isWhitespace).reverse)

/-- JS `s.substring(n)`: drop the first n characters. -/
def jsDropChars (s : String) (n : Nat) : String := String.mk (s.toList.drop n)

/-- `s.split(sep)[0]` for a one-character separator: the characters
before the first occurrence of sep. -/
def splitFirst (s : String) (sep : Char) : String :=
  String.mk (s.toList.takeWhile (fun c => c ≠ sep))

/-- The inbound request fields the gateway reads. -/
structure GatewayRequest where
  originalUrl : String
  url : String
  headers : List (String × HeaderValue)
  deriving Repr, DecidableEq

/-- Property access `req.headers[name]` (exact-key lookup, as on a JS
object; Node lowercases real inbound header names). -/
def getHeader (req : GatewayRequest) (name : String) : Option HeaderValue :=
  (req.headers.find? (fun p => p.1 = name)).map (fun p => p.2)

/-- The JS `a || b` chain over optional header values: the first truthy
operand wins, otherwise the last operand is kept. -/
def jsOrHV (a b : Option HeaderValue) : Option HeaderValue :=
  match a with
  | some v => if v.jsTruthy then some v else b
  | none => b

/-- JwtHelper.extractTokenFromRequest: scan the authorization header
casings with a `||` chain, return null if the result is falsy or not a
string, strip an optional Bearer marker and trim.  (The req.get
fallbacks of the source behave like the plain lookups on
Node-normalized headers and are absorbed into the chain.) -/
def extractTokenFromRequest (req : GatewayRequest) : Option String :=
  let authHeader :=
    jsOrHV (getHeader req "authorization")
      (jsOrHV (getHeader req "Authorization") (getHeader req "AUTHORIZATION"))
  match authHeader with
  | none => none
  | some hv =>
    if ¬ hv.jsTruthy then none
    else
      match hv with
      | .arr _ => none
      | .str s =>
        if jsStartsWith s "Bearer " then some (jsTrim (jsDropChars s 7))
        else some (jsTrim s)

/-- The outcome of one registered gateway route handler on one request:
fall through to the next middleware, reject with 401 Unauthorized, or
invoke the ReverseProxyForwarder with the decorated outbound headers. -/
inductive GatewayOutcome where
  | next
  | reject401
  | forward (outHeaders : List (String × String))
  deriving Repr, DecidableEq

/-- JS object assignment `headers[k] = v` on the outbound header map:
overwrite in place or append. -/
def jsSet (hs : List (String × String)) (k v : String) : List (String × String) :=
  if hs.any (fun p => p.1 = k) then
    hs.map (fun p => if p.1 = k then (k, v) else p)
  else
    hs ++ [(k, v)]

/-- Lookup in the outbound header map. -/
def lookupOut (hs : List (String × String)) (k : String) : Option String :=
  (hs.find? (fun p => p.1 = k)).map (fun p => p.2)

/-- JS falsiness of `headers[k]`: absent or the empty string. -/
def outFalsy (hs : List (String × String)) (k : String) : Bool :=
  match lookupOut hs k with
  | none => true
  | some s => s = ""

/-- ProxyMiddleware.use, proxyReqOptDecorator: start from the (guarded
empty) outbound header map, default Content-Type, copy every inbound
header not already set, re-assert the Authorization header, attach
x-user-id when the route requires auth, then apply the route strategy
extra headers, each only when nonempty after trim. -/
def buildProxyHeaders (req : GatewayRequest) (user : Option String)
    (addUserHeader : Bool) (extra : Option (List (String × String))) :
    List (String × String) :=
  let h0 : List (String × String) := []
  let h1 := if outFalsy h0 "Content-Type" then jsSet h0 "Content-Type" "application/json" else h0
  let h2 := req.headers.foldl
    (fun acc p =>
      if outFalsy acc p.1 then
        match p.2 with
        | .str s => jsSet acc p.1 s
        | .arr [] => acc
        | .arr (x :: _) => jsSet acc p.1 x
      else acc)
    h1
  let authHeaderValue : Option String :=
    match getHeader req "authorization" with
    | some (.str s) => some s
    | _ =>
      match getHeader req "Authorization" with
      | some (.str s) => some s
      | _ => none
  let h3 :=
    match authHeaderValue with
    | some s => if s ≠ "" then jsSet h2 "Authorization" s else h2
    | none => h2
  let h4 :=
    match user with
    | some uid => if addUserHeader then jsSet h3 "x-user-id" uid else h3
    | none => h3
  match extra with
  | none => h4
  | some pairs =>
    pairs.foldl
      (fun acc p => if (jsTrim p.2).length > 0 then jsSet acc p.1 p.2 else acc)
      h4

/-- A compiled proxy route rule from main.ts: path, the requireAuth
predicate and the optional extraHeaders strategy. -/
structure RouteRule where
  path : String
  requireAuth : GatewayRequest → Bool
  extraHeaders : Option (GatewayRequest → List (String × String))

/-- The `if (token)` guard of main.ts: the extracted token is truthy
(present and not the empty string). -/
def tokenIsTruthy (req : GatewayRequest) : Bool :=
  match extractTokenFromRequest req with
  | some t => t ≠ ""
  | none => false

/-- The user main.ts attaches to the request: the verified payload of a
truthy extracted token, nothing otherwise.  `verify` is the external
jwt.verify oracle behind JwtHelper.validateToken, yielding the user_id
claim on success. -/
def authenticatedUser (verify : String → Option String) (req : GatewayRequest) :
    Option String :=
  if tokenIsTruthy req then (extractTokenFromRequest req).bind verify else none

/-- `req.originalUrl || req.url` as the proxy function reads it. -/
def effectiveOriginalUrl (req : GatewayRequest) : String :=
  if req.originalUrl ≠ "" then req.originalUrl else req.url

/-- The per-route middleware main.ts registers (lines 110-148), fused
with the proxy function set up by ProxyMiddleware.use: extract and
validate the token (validation runs iff a truthy token was extracted),
attach the user on success, then fall through when the path does not
match, reject 401 when auth is required but no user is attached, and
otherwise forward with the decorated headers.  Returns the outcome and
whether JwtHelper.validateToken was invoked. -/
def routeHandler (verify : String → Option String) (route : RouteRule)
    (req : GatewayRequest) : GatewayOutcome × Bool :=
  let user : Option String := authenticatedUser verify req
  let addUserHeader := route.requireAuth req
  let outcome :=
    if ¬ jsStartsWith (effectiveOriginalUrl req) route.path then GatewayOutcome.next
    else if addUserHeader && user.isNone then GatewayOutcome.reject401
    else GatewayOutcome.forward
      (buildProxyHeaders req user addUserHeader
        (route.extraHeaders.map (fun f => f req)))
  (outcome, tokenIsTruthy req)

/-- The requireAuth predicate of the /user route in main.ts: a request
is public when its path (full or relative, query stripped) equals or
extends one of the four allow-list entries, or merely contains the
signin or signup marker anywhere; auth is required otherwise. -/
def userRequireAuth (req : GatewayRequest) : Bool :=
  let originalUrl := if req.originalUrl ≠ "" then req.originalUrl
    else if req.url ≠ "" then req.url else ""
  let url := if req.url ≠ "" then req.url else ""
  let requestPath := splitFirst originalUrl '?'
  let relativePath := splitFirst url '?'
  let publicPaths := ["/user/signup", "/user/signin", "/signup", "/signin"]
  let isPublic := publicPaths.any (fun publicPath =>
    requestPath = publicPath ||
    jsStartsWith requestPath (publicPath ++ "/") ||
    relativePath = publicPath ||
    jsStartsWith relativePath (publicPath ++ "/") ||
    jsIncludes requestPath "signin" ||
    jsIncludes requestPath "signup")
  ! isPublic

/-- The /user proxy route. -/
def userRoute : RouteRule :=
  ⟨"/user", userRequireAuth, none⟩

/-- The /template proxy route: all template routes require auth. -/
def templateRoute : RouteRule :=
  ⟨"/template", fun _ => true, none⟩

/-- The resolveHeaderValue helper of the notifications extraHeaders
strategy: first nonblank entry of an array value, a nonblank string
value itself, undefined otherwise. -/
def resolveHeaderValue : Option HeaderValue → Option String
  | some (.arr xs) => xs.find? (fun item => (jsTrim item).length > 0)
  | some (.str v) => if (jsTrim v).length > 0 then some v else none
  | none => none

/-- The /notifications proxy route.  Its requireAuth returns false in
the source (despite the adjacent comment that all orchestrator routes
require authentication).  The two uuidv4() calls of the extraHeaders
strategy are supplied as the parameters freshIdem and freshCorr. -/
def notificationsRoute (freshIdem freshCorr : String) : RouteRule :=
  ⟨"/notifications", fun _ => false,
    some (fun req =>
      let existingIdempotencyKey :=
        resolveHeaderValue (getHeader req "x-idempotency-key")
      let existingCorrelationId :=
        resolveHeaderValue (getHeader req "x-correlation-id")
      [("X-Idempotency-Key", existingIdempotencyKey.getD freshIdem),
       ("X-Correlation-ID", existingCorrelationId.getD freshCorr)])⟩

/-! ## Response envelope: ResponseInterceptor and HttpExceptionFilter

JSON bodies are modelled by a small inductive; property access on a
non-object yields undefined, modelled as none. -/

/-- A JSON value as the interceptor sees response bodies. -/
inductive Json where
  | null
  | bool (b : Bool)
  | num (n : Int)
  | str (s : String)
  | arr (xs : List Json)
  | obj (fields : List (String × Json))
  deriving Repr

/-- Property access `v[name]`: a field of an object, undefined (none)
otherwise. -/
def Json.getField : Json → String → Option Json
  | .obj fields, name => (fields.find? (fun p => p.1 = name)).map (fun p => p.2)
  | _, _ => none

/-- JavaScript truthiness of a JSON value. -/
def Json.jsTruthy : Json → Bool
  | .null => false
  | .bool b => b
  | .num n => n ≠ 0
  | .str s => s ≠ ""
  | .arr _ => true
  | .obj _ => true

/-- The JS nullish coalescing `a ?? b` where a is a (possibly
undefined) property access. -/
def jsNullish (a : Option Json) (b : Json) : Json :=
  match a with
  | none => b
  | some .null => b
  | some v => v

/-- The default wrap of ResponseInterceptor.intercept for a
non-enveloped, non-paginated body. -/
def interceptDefault (data : Json) : Json :=
  .obj [("success", .bool true), ("data", data),
        ("message", .str "Request successful"), ("meta", .obj [])]

/-- ResponseInterceptor.intercept, the map applied to every success
body: pass through when a success field is present, preserve a truthy
meta field (pagination) while defaulting data and message, otherwise
wrap with the default envelope. -/
def ResponseInterceptor.intercept (data : Json) : Json :=
  if (data.getField "success").isSome then data
  else
    match data.getField "meta" with
    | some m =>
      if m.jsTruthy then
        .obj [("success", .bool true),
              ("data", jsNullish (data.getField "data") (.obj [])),
              ("message", jsNullish (data.getField "message") (.str "Request successful")),
              ("meta", m)]
      else interceptDefault data
    | none => interceptDefault data

/-- An exception reaching the outermost filter: either a structured
HttpException with its status, the message field of getResponse()
(none when getResponse() is a bare string or lacks the field) and its
own message, or an unstructured error. -/
inductive GatewayException where
  | http (status : Nat) (responseMessage : Option Json) (message : String)
  | other
  deriving Repr

/-- HttpExceptionFilter.catch: nothing is written when headers were
already sent; otherwise the client receives the uniform failure
envelope with the structured status when the exception is an
HttpException and 500 otherwise. -/
def HttpExceptionFilter.catch (exception : GatewayException) (headersSent : Bool) :
    Option (Nat × Json) :=
  if headersSent then none
  else
    let status := match exception with | .http s _ _ => s | .other => 500
    let message : Json :=
      match exception with
      | .http _ rm em =>
        match rm with
        | some v => if v.jsTruthy then v else .str em
        | none => .str em
      | .other => .str "Internal server error"
    some (status,
      .obj [("success", .bool false), ("error", message), ("message", message),
            ("data", .obj []), ("meta", .obj [])])

/-- The value a route handler forwards upstream under a given header
name: defined only when the handler reached the forwarder. -/
def forwardedHeader (verify : String → Option String) (route : RouteRule)
    (req : GatewayRequest) (name : String) : Option String :=
  match (routeHandler verify route req).1 with
  | GatewayOutcome.forward hs => lookupOut hs name
  | _ => none

/-- The store after k sequential increment calls with the same key,
window W, the given limit and blockDuration, starting from the empty
store; the k-th call (0-indexed) happens at instant `t k`. -/
def stateAfter (t : Nat → Nat) (W limit bd : Nat) : Nat → Store
  | 0 => Store.empty
  | k + 1 => (increment (stateAfter t W limit bd k) (t k) "caller" W limit bd).2

/-- The record returned by the (k+1)-th sequential increment call
(0-indexed k) of the run described at stateAfter. -/
def recAt (t : Nat → Nat) (W limit bd : Nat) (k : Nat) : ThrottlerStorageRecord :=
  (increment (stateAfter t W limit bd k) (t k) "caller" W limit bd).1

/-! ## Theorems -/

/-- C3: every call to increment made while the BlockRecord of the key
has positive remaining TTL returns blocked=true with timeToBlockExpire
equal to that remaining TTL and leaves the store (in particular the
CounterRecord) unchanged, whatever the counter holds and even if a
fresh counting window would otherwise have started. -/
theorem increment_while_blocked_is_sticky (s : Store) (now : Nat) (key : String)
    (ttl limit blockDuration : Nat) (h : 0 < s.blockTtl now) :
    (increment s now key ttl limit blockDuration).1.isBlocked = true ∧
    (increment s now key ttl limit blockDuration).1.timeToBlockExpire = s.blockTtl now ∧
    (increment s now key ttl limit blockDuration).2 = s := by
  simp [increment, h]

/-- Witness for C3 at a concrete blocked store: counter at 2 with 40s
left in the window, block with 20s left; the call reports blocked with
the remaining block TTL and the store is untouched. -/
theorem increment_while_blocked_is_sticky_witness :
    0 < (Store.mk (some ⟨2, some 50⟩) (some 30)).blockTtl 10 ∧
    ((increment ⟨some ⟨2, some 50⟩, some 30⟩ 10 "k" 60 3 120).1.isBlocked = true ∧
     (increment ⟨some ⟨2, some 50⟩, some 30⟩ 10 "k" 60 3 120).1.timeToBlockExpire =
       (Store.mk (some ⟨2, some 50⟩) (some 30)).blockTtl 10 ∧
     (increment ⟨some ⟨2, some 50⟩, some 30⟩ 10 "k" 60 3 120).2 =
       ⟨some ⟨2, some 50⟩, some 30⟩) :=
  ⟨by decide, increment_while_blocked_is_sticky ⟨some ⟨2, some 50⟩, some 30⟩ 10 "k" 60 3 120 (by decide)⟩

/-- C10: whenever increment returns early because the BlockRecord has
positive TTL, the returned record reports totalHits equal to the
configured limit and timeToExpire equal to 0, regardless of the stored
counter value and of its remaining window TTL. -/
theorem increment_blocked_reports_limit_and_zero (s : Store) (now : Nat) (key : String)
    (ttl limit blockDuration : Nat) (h : 0 < s.blockTtl now) :
    (increment s now key ttl limit blockDuration).1.totalHits = limit ∧
    (increment s now key ttl limit blockDuration).1.timeToExpire = 0 := by
  simp [increment, h]

/-- Witness for C10: the counter actually stores 7 hits with 90s left,
yet the blocked record reports totalHits = 5 (the limit) and
timeToExpire = 0. -/
theorem increment_blocked_reports_limit_and_zero_witness :
    0 < (Store.mk (some ⟨7, some 100⟩) (some 25)).blockTtl 10 ∧
    ((increment ⟨some ⟨7, some 100⟩, some 25⟩ 10 "caller" 90 5 60).1.totalHits = 5 ∧
     (increment ⟨some ⟨7, some 100⟩, some 25⟩ 10 "caller" 90 5 60).1.timeToExpire = 0) :=
  ⟨by decide, increment_blocked_reports_limit_and_zero ⟨some ⟨7, some 100⟩, some 25⟩ 10 "caller" 90 5 60 (by decide)⟩

/-- C1 (failing input): a request to /notifications/send carrying no
Authorization header at all is not rejected with 401 — the registered
handler forwards it to the orchestrator upstream, because the
notifications route rule sets requireAuth to a constant false even
though its comment states all orchestrator routes require
authentication. -/
theorem notifications_without_token_is_forwarded :
    (routeHandler (fun _ => none) (notificationsRoute "fresh-idem" "fresh-corr")
        ⟨"/notifications/send", "/send", []⟩).1 =
      GatewayOutcome.forward
        [("Content-Type", "application/json"),
         ("X-Idempotency-Key", "fresh-idem"),
         ("X-Correlation-ID", "fresh-corr")] ∧
    (routeHandler (fun _ => none) (notificationsRoute "fresh-idem" "fresh-corr")
        ⟨"/notifications/send", "/send", []⟩).1 ≠ GatewayOutcome.reject401 := by
  constructor
  · rfl
  · decide

/-- C2: for every request matched to a route whose requireAuth
predicate holds, if no valid bearer token yields an authenticated
identity, the handler ends in 401 and never invokes the forwarder. -/
theorem auth_required_without_identity_rejects_401
    (verify : String → Option String) (route : RouteRule) (req : GatewayRequest)
    (hmatch : jsStartsWith (effectiveOriginalUrl req) route.path = true)
    (hauth : route.requireAuth req = true)
    (huser : authenticatedUser verify req = none) :
    (routeHandler verify route req).1 = GatewayOutcome.reject401 ∧
    ∀ hs, (routeHandler verify route req).1 ≠ GatewayOutcome.forward hs := by
  have houtcome : (routeHandler verify route req).1 = GatewayOutcome.reject401 := by
    simp [routeHandler, hmatch, hauth, huser]
  exact ⟨houtcome, fun hs hforward => by rw [houtcome] at hforward; exact absurd hforward (by simp)⟩

/-- Witness for C2: a GET /template/list request with no headers on the
template route (requireAuth constantly true) is rejected with 401 and
never forwarded. -/
theorem auth_required_without_identity_rejects_401_witness :
    (routeHandler (fun _ => none) templateRoute ⟨"/template/list", "/list", []⟩).1 =
      GatewayOutcome.reject401 ∧
    (routeHandler (fun _ => none) templateRoute ⟨"/template/list", "/list", []⟩).1 ≠
      GatewayOutcome.forward [] :=
  have h := auth_required_without_identity_rejects_401 (fun _ => none) templateRoute
    ⟨"/template/list", "/list", []⟩ (by decide) (by decide) (by decide)
  ⟨h.1, h.2 []⟩

/-- C6 (counterexample): the claim that token validation is never
invoked for a public allow-list path fails — a request to /user/signin
(public: its requireAuth is false) that happens to carry an
Authorization header has its token validated, because main.ts
validates whenever a truthy token was extracted, before any route or
path check. -/
theorem public_path_with_token_invokes_validation :
    userRequireAuth ⟨"/user/signin", "/signin",
      [("authorization", HeaderValue.str "Bearer sometoken")]⟩ = false ∧
    (routeHandler (fun _ => none) userRoute ⟨"/user/signin", "/signin",
      [("authorization", HeaderValue.str "Bearer sometoken")]⟩).2 = true := by
  constructor
  · decide
  · decide

/-- C6 (amended): for every request on the public allow-list that does
not carry a bearer token, token validation is never invoked; validation
runs exactly when a truthy token was extracted, regardless of path. -/
theorem public_path_without_token_skips_validation
    (verify : String → Option String) (req : GatewayRequest)
    (_hpublic : userRequireAuth req = false)
    (hnotoken : extractTokenFromRequest req = none) :
    (routeHandler verify userRoute req).2 = false := by
  simp [routeHandler, tokenIsTruthy, hnotoken]

/-- Witness for the amended C6: GET /user/signin without any headers
never triggers validation, whatever the verifier would say. -/
theorem public_path_without_token_skips_validation_witness :
    (routeHandler (fun t => some t) userRoute ⟨"/user/signin", "/signin", []⟩).2 = false :=
  public_path_without_token_skips_validation (fun t => some t)
    ⟨"/user/signin", "/signin", []⟩ (by decide) (by decide)

/-- Every normalized body carries a success field, so a second pass of
the interceptor leaves it alone. -/
theorem intercept_getField_success (b : Json) :
    ((ResponseInterceptor.intercept b).getField "success").isSome = true := by
  unfold ResponseInterceptor.intercept
  by_cases h : (b.getField "success").isSome = true
  · rw [if_pos h]
    exact h
  · rw [if_neg h]
    cases hm : b.getField "meta" with
    | none =>
      rfl
    | some m =>
      by_cases ht : m.jsTruthy = true
      · simp only [ht, if_true]
        rfl
      · simp only [ht, if_false]
        rfl

/-- C7: the response normalizer passes an already-enveloped body (one
with a success field) through unchanged, hence is idempotent; it keeps
a truthy pagination meta field under meta; and it wraps every other
body b as success=true, data=b, message="Request successful", empty
meta. -/
theorem response_interceptor_normalization (b : Json) :
    ((b.getField "success").isSome = true → ResponseInterceptor.intercept b = b) ∧
    ResponseInterceptor.intercept (ResponseInterceptor.intercept b) =
      ResponseInterceptor.intercept b ∧
    (∀ m, b.getField "success" = none → b.getField "meta" = some m →
      m.jsTruthy = true →
      (ResponseInterceptor.intercept b).getField "meta" = some m) ∧
    (b.getField "success" = none →
      (∀ m, b.getField "meta" = some m → m.jsTruthy = false) →
      ResponseInterceptor.intercept b =
        Json.obj [("success", Json.bool true), ("data", b),
                  ("message", Json.str "Request successful"),
                  ("meta", Json.obj [])]) := by
  have pass : ∀ c : Json, ((c.getField "success").isSome = true) →
      ResponseInterceptor.intercept c = c := by
    intro c h
    unfold ResponseInterceptor.intercept
    rw [if_pos h]
  refine ⟨pass b, pass _ (intercept_getField_success b), ?_, ?_⟩
  · intro m hs hm ht
    have h' : ¬((b.getField "success").isSome = true) := by simp [hs]
    unfold ResponseInterceptor.intercept
    rw [if_neg h', hm]
    simp only [ht, if_true]
    rfl
  · intro hs hm
    have h' : ¬((b.getField "success").isSome = true) := by simp [hs]
    unfold ResponseInterceptor.intercept
    rw [if_neg h']
    cases hmeta : b.getField "meta" with
    | none =>
      rfl
    | some m =>
      have hfalse := hm m hmeta
      simp only [hfalse, if_false]
      rfl

/-- Witness for C7 at a concrete non-enveloped body: it is wrapped with
the default envelope and a second application changes nothing. -/
theorem response_interceptor_normalization_witness :
    ResponseInterceptor.intercept (Json.obj [("id", Json.num 7)]) =
      Json.obj [("success", Json.bool true), ("data", Json.obj [("id", Json.num 7)]),
                ("message", Json.str "Request successful"), ("meta", Json.obj [])] ∧
    ResponseInterceptor.intercept
        (ResponseInterceptor.intercept (Json.obj [("id", Json.num 7)])) =
      ResponseInterceptor.intercept (Json.obj [("id", Json.num 7)]) :=
  have h := response_interceptor_normalization (Json.obj [("id", Json.num 7)])
  ⟨h.2.2.2 rfl (fun m hm => by simp [Json.getField] at hm), h.2.1⟩

/-- C8: every uncaught failure reaching the outermost filter is
answered with the uniform failure envelope, carrying the structured
status of an HttpException and 500 for an unstructured error; when
response headers were already sent, nothing is written at all. -/
theorem http_exception_filter_envelope (e : GatewayException) (headersSent : Bool) :
    (headersSent = true → HttpExceptionFilter.catch e headersSent = none) ∧
    (∀ s rm em, e = GatewayException.http s rm em → headersSent = false →
      ∃ msg : Json, HttpExceptionFilter.catch e headersSent =
        some (s, Json.obj [("success", Json.bool false), ("error", msg),
          ("message", msg), ("data", Json.obj []), ("meta", Json.obj [])])) ∧
    (e = GatewayException.other → headersSent = false →
      HttpExceptionFilter.catch e headersSent =
        some (500, Json.obj [("success", Json.bool false),
          ("error", Json.str "Internal server error"),
          ("message", Json.str "Internal server error"),
          ("data", Json.obj []), ("meta", Json.obj [])])) := by
  refine ⟨fun h => by simp [HttpExceptionFilter.catch, h], ?_, ?_⟩
  · intro s rm em he hh
    subst he
    subst hh
    exact ⟨match rm with
      | some v => if v.jsTruthy then v else Json.str em
      | none => Json.str em, by cases rm <;> simp [HttpExceptionFilter.catch]⟩
  · intro he hh
    subst he
    subst hh
    rfl

/-- Witness for C8: an unstructured error with headers not yet sent
receives status 500 and the uniform envelope; and with headers already
sent nothing is written. -/
theorem http_exception_filter_envelope_witness :
    HttpExceptionFilter.catch GatewayException.other false =
      some (500, Json.obj [("success", Json.bool false),
        ("error", Json.str "Internal server error"),
        ("message", Json.str "Internal server error"),
        ("data", Json.obj []), ("meta", Json.obj [])]) ∧
    HttpExceptionFilter.catch (GatewayException.http 404 none "Not Found") true = none :=
  ⟨(http_exception_filter_envelope GatewayException.other false).2.2 rfl rfl,
   (http_exception_filter_envelope (GatewayException.http 404 none "Not Found") true).1 rfl⟩

/-- Overwriting every entry under key k and then looking up k finds the
new value exactly when some entry carried k. -/
theorem find?_overwrite (t : List (String × String)) (k v : String) :
    List.find? (fun p => p.1 = k) (t.map (fun p => if p.1 = k then (k, v) else p)) =
      (List.find? (fun p => p.1 = k) t).map (fun _ => (k, v)) := by
  induction t with
  | nil => rfl
  | cons a t ih =>
    by_cases hak : a.1 = k
    · simp [hak, List.find?_cons_of_pos]
    · simp only [List.map_cons, if_neg hak]
      rw [List.find?_cons_of_neg _ (by simpa using hak),
        List.find?_cons_of_neg _ (by simpa using hak), ih]

/-- Overwriting entries under a different key does not change a
lookup. -/
theorem find?_overwrite_ne (t : List (String × String)) (k k' v : String)
    (hkk : k' ≠ k) :
    List.find? (fun p => p.1 = k) (t.map (fun p => if p.1 = k' then (k', v) else p)) =
      List.find? (fun p => p.1 = k) t := by
  induction t with
  | nil => rfl
  | cons a t ih =>
    by_cases hak : a.1 = k'
    · simp only [List.map_cons, if_pos hak]
      rw [List.find?_cons_of_neg _ (by simpa using hkk),
        List.find?_cons_of_neg _ (by simp [hak, hkk]), ih]
    · simp only [List.map_cons, if_neg hak]
      by_cases hk : a.1 = k
      · rw [List.find?_cons_of_pos _ (by simpa using hk),
          List.find?_cons_of_pos _ (by simpa using hk)]
      · rw [List.find?_cons_of_neg _ (by simpa using hk),
          List.find?_cons_of_neg _ (by simpa using hk), ih]

/-- Appending a fresh entry under k is found when no earlier entry
carried k. -/
theorem find?_append_last (t : List (String × String)) (k v : String)
    (h : t.any (fun p => p.1 = k) = false) :
    List.find? (fun p => p.1 = k) (t ++ [(k, v)]) = some (k, v) := by
  induction t with
  | nil => simp
  | cons a t ih =>
    simp only [List.any_cons, Bool.or_eq_false_iff] at h
    rw [List.cons_append, List.find?_cons_of_neg _ (by simpa using h.1)]
    exact ih h.2

/-- Appending an entry under a different key does not change a
lookup. -/
theorem find?_append_last_ne (t : List (String × String)) (k k' v : String)
    (hkk : k' ≠ k) :
    List.find? (fun p => p.1 = k) (t ++ [(k', v)]) =
      List.find? (fun p => p.1 = k) t := by
  induction t with
  | nil => simp [hkk]
  | cons a t ih =>
    by_cases hk : a.1 = k
    · rw [List.cons_append, List.find?_cons_of_pos _ (by simpa using hk),
        List.find?_cons_of_pos _ (by simpa using hk)]
    · rw [List.cons_append, List.find?_cons_of_neg _ (by simpa using hk),
        List.find?_cons_of_neg _ (by simpa using hk), ih]

/-- A JS object assignment makes the assigned value visible under its
key. -/
theorem lookupOut_jsSet_self (hs : List (String × String)) (k v : String) :
    lookupOut (jsSet hs k v) k = some v := by
  unfold jsSet
  by_cases hany : hs.any (fun p => p.1 = k) = true
  · rw [if_pos hany]
    unfold lookupOut
    rw [find?_overwrite]
    have hsome : (List.find? (fun p => p.1 = k) hs).isSome := by
      rw [List.find?_isSome]
      simpa [List.any_eq_true] using hany
    obtain ⟨w, hw⟩ := Option.isSome_iff_exists.mp hsome
    rw [hw]
    rfl
  · rw [if_neg hany]
    unfold lookupOut
    rw [Bool.not_eq_true] at hany
    rw [find?_append_last hs k v hany]
    rfl

/-- A JS object assignment leaves every other key unchanged. -/
theorem lookupOut_jsSet_other (hs : List (String × String)) (k k' v : String)
    (hkk : k' ≠ k) : lookupOut (jsSet hs k' v) k = lookupOut hs k := by
  unfold jsSet
  by_cases hany : hs.any (fun p => p.1 = k') = true
  · rw [if_pos hany]
    unfold lookupOut
    rw [find?_overwrite_ne hs k k' v hkk]
  · rw [if_neg hany]
    unfold lookupOut
    rw [find?_append_last_ne hs k k' v hkk]

/-- Looking up the first strategy header after the extraHeaders fold of
proxyReqOptDecorator: a nonblank first value is always visible, the
second assignment (under the other name) cannot shadow it. -/
theorem lookupOut_buildProxyHeaders_fst
    (req : GatewayRequest) (user : Option String) (addUser : Bool)
    (K1 K2 v1 v2 : String) (hne : K2 ≠ K1) (hv1 : 0 < (jsTrim v1).length) :
    lookupOut (buildProxyHeaders req user addUser (some [(K1, v1), (K2, v2)])) K1 =
      some v1 := by
  unfold buildProxyHeaders
  simp only [List.foldl_cons, List.foldl_nil]
  rw [if_pos hv1]
  by_cases hv2 : 0 < (jsTrim v2).length
  · rw [if_pos hv2, lookupOut_jsSet_other _ K1 K2 v2 hne, lookupOut_jsSet_self]
  · rw [if_neg hv2, lookupOut_jsSet_self]

/-- Looking up the second strategy header after the extraHeaders fold:
a nonblank second value is always visible. -/
theorem lookupOut_buildProxyHeaders_snd
    (req : GatewayRequest) (user : Option String) (addUser : Bool)
    (K1 K2 v1 v2 : String) (hv2 : 0 < (jsTrim v2).length) :
    lookupOut (buildProxyHeaders req user addUser (some [(K1, v1), (K2, v2)])) K2 =
      some v2 := by
  unfold buildProxyHeaders
  simp only [List.foldl_cons, List.foldl_nil]
  by_cases hv1 : 0 < (jsTrim v1).length
  · rw [if_pos hv1, if_pos hv2, lookupOut_jsSet_self]
  · rw [if_neg hv1, if_pos hv2, lookupOut_jsSet_self]

/-- A resolved header value is nonblank. -/
theorem resolveHeaderValue_pos (o : Option HeaderValue) (v : String)
    (h : resolveHeaderValue o = some v) : 0 < (jsTrim v).length := by
  cases o with
  | none => simp [resolveHeaderValue] at h
  | some hv =>
    cases hv with
    | str s =>
      simp only [resolveHeaderValue] at h
      by_cases hs : 0 < (jsTrim s).length
      · rw [if_pos hs] at h
        cases h
        exact hs
      · rw [if_neg hs] at h
        exact absurd h (by simp)
    | arr xs =>
      simp only [resolveHeaderValue] at h
      have hp := List.find?_some h
      exact of_decide_eq_true hp

/-- A matching request on the notifications route always reaches the
forwarder, with the strategy headers computed from the existing inbound
values or the fresh uuids. -/
theorem notifications_forwards (verify : String → Option String) (u1 u2 : String)
    (req : GatewayRequest)
    (hmatch : jsStartsWith (effectiveOriginalUrl req) "/notifications" = true) :
    (routeHandler verify (notificationsRoute u1 u2) req).1 =
      GatewayOutcome.forward (buildProxyHeaders req (authenticatedUser verify req) false
        (some [("X-Idempotency-Key",
                 (resolveHeaderValue (getHeader req "x-idempotency-key")).getD u1),
               ("X-Correlation-ID",
                 (resolveHeaderValue (getHeader req "x-correlation-id")).getD u2)])) := by
  unfold routeHandler notificationsRoute
  simp [hmatch]

/-- When the inbound request has no usable x-idempotency-key, the
forwarded X-Idempotency-Key is exactly the fresh generated value. -/
theorem notifications_fresh_key (verify : String → Option String) (u1 u2 : String)
    (req : GatewayRequest)
    (hmatch : jsStartsWith (effectiveOriginalUrl req) "/notifications" = true)
    (hnone : resolveHeaderValue (getHeader req "x-idempotency-key") = none)
    (hu1 : 0 < (jsTrim u1).length) :
    forwardedHeader verify (notificationsRoute u1 u2) req "X-Idempotency-Key" =
      some u1 := by
  unfold forwardedHeader
  rw [notifications_forwards verify u1 u2 req hmatch, hnone]
  simp only [Option.getD_none]
  exact lookupOut_buildProxyHeaders_fst req _ false _ _ u1 _ (by decide) hu1

/-- C9: on the notifications route, an inbound nonblank
x-idempotency-key or x-correlation-id is forwarded under the strategy
header name with that exact value; when absent, the fresh generated
value is attached; and two requests without the header, given distinct
fresh values, are forwarded with distinct values. -/
theorem notifications_header_strategy
    (verify : String → Option String) (u1 u2 : String) (req : GatewayRequest)
    (hmatch : jsStartsWith (effectiveOriginalUrl req) "/notifications" = true) :
    (∀ v, resolveHeaderValue (getHeader req "x-idempotency-key") = some v →
      forwardedHeader verify (notificationsRoute u1 u2) req "X-Idempotency-Key" =
        some v) ∧
    (resolveHeaderValue (getHeader req "x-idempotency-key") = none →
      0 < (jsTrim u1).length →
      forwardedHeader verify (notificationsRoute u1 u2) req "X-Idempotency-Key" =
        some u1) ∧
    (∀ v, resolveHeaderValue (getHeader req "x-correlation-id") = some v →
      forwardedHeader verify (notificationsRoute u1 u2) req "X-Correlation-ID" =
        some v) ∧
    (resolveHeaderValue (getHeader req "x-correlation-id") = none →
      0 < (jsTrim u2).length →
      forwardedHeader verify (notificationsRoute u1 u2) req "X-Correlation-ID" =
        some u2) ∧
    (∀ (req2 : GatewayRequest) (u1' u2' : String),
      jsStartsWith (effectiveOriginalUrl req2) "/notifications" = true →
      resolveHeaderValue (getHeader req "x-idempotency-key") = none →
      resolveHeaderValue (getHeader req2 "x-idempotency-key") = none →
      0 < (jsTrim u1).length → 0 < (jsTrim u1').length → u1 ≠ u1' →
      forwardedHeader verify (notificationsRoute u1 u2) req "X-Idempotency-Key" ≠
        forwardedHeader verify (notificationsRoute u1' u2') req2 "X-Idempotency-Key") := by
  refine ⟨?_, ?_, ?_, ?_, ?_⟩
  · intro v hv
    unfold forwardedHeader
    rw [notifications_forwards verify u1 u2 req hmatch, hv]
    simp only [Option.getD_some]
    exact lookupOut_buildProxyHeaders_fst req _ false _ _ v _ (by decide)
      (resolveHeaderValue_pos _ v hv)
  · exact notifications_fresh_key verify u1 u2 req hmatch
  · intro v hv
    unfold forwardedHeader
    rw [notifications_forwards verify u1 u2 req hmatch, hv]
    simp only [Option.getD_some]
    exact lookupOut_buildProxyHeaders_snd req _ false _ _ _ v
      (resolveHeaderValue_pos _ v hv)
  · intro hnone hu2
    unfold forwardedHeader
    rw [notifications_forwards verify u1 u2 req hmatch, hnone]
    simp only [Option.getD_none]
    exact lookupOut_buildProxyHeaders_snd req _ false _ _ _ u2 hu2
  · intro req2 u1' u2' hmatch2 hnone1 hnone2 hu1 hu1' hne
    rw [notifications_fresh_key verify u1 u2 req hmatch hnone1 hu1,
      notifications_fresh_key verify u1' u2' req2 hmatch2 hnone2 hu1']
    simp [hne]

/-- Witness for C9: a request already carrying x-idempotency-key
"mykey" is forwarded with exactly that value, while two header-less
requests with distinct fresh uuids receive distinct forwarded values. -/
theorem notifications_header_strategy_witness :
    forwardedHeader (fun _ => none) (notificationsRoute "uuid-a" "uuid-b")
      ⟨"/notifications/send", "/send",
        [("x-idempotency-key", HeaderValue.str "mykey")]⟩ "X-Idempotency-Key" =
      some "mykey" ∧
    forwardedHeader (fun _ => none) (notificationsRoute "uuid-a" "uuid-b")
      ⟨"/notifications/send", "/send", []⟩ "X-Idempotency-Key" ≠
    forwardedHeader (fun _ => none) (notificationsRoute "uuid-c" "uuid-d")
      ⟨"/notifications/send", "/send", []⟩ "X-Idempotency-Key" :=
  ⟨(notifications_header_strategy (fun _ => none) "uuid-a" "uuid-b"
      ⟨"/notifications/send", "/send",
        [("x-idempotency-key", HeaderValue.str "mykey")]⟩ (by decide)).1
      "mykey" (by decide),
   (notifications_header_strategy (fun _ => none) "uuid-a" "uuid-b"
      ⟨"/notifications/send", "/send", []⟩ (by decide)).2.2.2.2
      ⟨"/notifications/send", "/send", []⟩ "uuid-c" "uuid-d"
      (by decide) (by decide) (by decide) (by decide) (by decide) (by decide)⟩

/-- Invariant of a sequential run within one window: after k calls
(k at most the limit, all so far within the first call's window), the
counter stores exactly k hits expiring at `t 0 + W` and no block is
set. -/
theorem stateAfter_shape (t : Nat → Nat) (W limit bd : Nat)
    (hW : ∀ k, k ≤ limit → t k < t 0 + W) :
    ∀ k, k ≤ limit →
      stateAfter t W limit bd k =
        if k = 0 then Store.empty else ⟨some ⟨k, some (t 0 + W)⟩, none⟩ := by
  intro k
  induction k with
  | zero =>
    intro _
    simp [stateAfter]
  | succ k ih =>
    intro hk1
    have hk : k ≤ limit := Nat.le_of_succ_le hk1
    rw [stateAfter, ih hk]
    by_cases hk0 : k = 0
    · subst hk0
      have hnb : ¬ ((1:Nat) > limit) := by omega
      simp [increment, Store.blockTtl, Store.counterLive, Store.empty, hnb]
    · have ht : t k < t 0 + W := hW k hk
      have hr1 : ¬ (k + 1 = 1) := by omega
      have hnb : ¬ (k + 1 > limit) := by omega
      simp [increment, Store.blockTtl, Store.counterLive, hk0, ht, hr1, hnb]

/-- C4: starting from an empty store, in a run of limit+1 sequential
increment calls with the same key all within the window W of the first
call, each of the first `limit` calls reports blocked=false with
totalHits equal to its ordinal, and the (limit+1)-th call reports
blocked=true with timeToBlockExpire = blockDuration > 0 and sets a
BlockRecord whose TTL at that instant is exactly blockDuration. -/
theorem rate_limiter_window_blocks (t : Nat → Nat) (W limit bd : Nat)
    (hW : ∀ k, k ≤ limit → t k < t 0 + W) (hbd : 0 < bd) :
    (∀ k, k < limit →
      (recAt t W limit bd k).isBlocked = false ∧
      (recAt t W limit bd k).totalHits = k + 1) ∧
    (recAt t W limit bd limit).isBlocked = true ∧
    (recAt t W limit bd limit).totalHits = limit + 1 ∧
    (recAt t W limit bd limit).timeToBlockExpire = (bd : Int) ∧
    0 < (recAt t W limit bd limit).timeToBlockExpire ∧
    (stateAfter t W limit bd (limit + 1)).blockExpiresAt = some (t limit + bd) ∧
    (stateAfter t W limit bd (limit + 1)).blockTtl (t limit) = (bd : Int) := by
  have hblocked : (recAt t W limit bd limit).isBlocked = true ∧
      (recAt t W limit bd limit).totalHits = limit + 1 ∧
      (recAt t W limit bd limit).timeToBlockExpire = (bd : Int) ∧
      (stateAfter t W limit bd (limit + 1)).blockExpiresAt = some (t limit + bd) := by
    have hshape := stateAfter_shape t W limit bd hW limit le_rfl
    rw [recAt, stateAfter, hshape]
    by_cases hl0 : limit = 0
    · subst hl0
      simp [increment, Store.blockTtl, Store.counterLive, Store.empty]
    · have ht : t limit < t 0 + W := hW limit le_rfl
      have hr1 : ¬ (limit + 1 = 1) := by omega
      have hgt : limit + 1 > limit := by omega
      simp [increment, Store.blockTtl, Store.counterLive, hl0, ht, hr1, hgt]
  refine ⟨?_, hblocked.1, hblocked.2.1, hblocked.2.2.1, ?_, hblocked.2.2.2, ?_⟩
  · intro k hk
    have hshape := stateAfter_shape t W limit bd hW k (Nat.le_of_lt hk)
    rw [recAt, hshape]
    by_cases hk0 : k = 0
    · subst hk0
      have hnb : ¬ ((1:Nat) > limit) := by omega
      simp [increment, Store.blockTtl, Store.counterLive, Store.empty, hnb]
    · have ht : t k < t 0 + W := hW k (Nat.le_of_lt hk)
      have hr1 : ¬ (k + 1 = 1) := by omega
      have hnb : ¬ (k + 1 > limit) := by omega
      simp [increment, Store.blockTtl, Store.counterLive, hk0, ht, hr1, hnb]
  · rw [hblocked.2.2.1]
    exact_mod_cast hbd
  · rw [Store.blockTtl, hblocked.2.2.2]
    have hlt : t limit < t limit + bd := by omega
    simp only [hlt, if_true]
    push_cast
    omega

/-- Witness for C4: all calls at instant 0, limit 2, window 10,
blockDuration 5 — the first two calls pass with hits 1 and 2, the
third is blocked for exactly 5 seconds. -/
theorem rate_limiter_window_blocks_witness :
    ((recAt (fun _ => 0) 10 2 5 0).isBlocked = false ∧
     (recAt (fun _ => 0) 10 2 5 0).totalHits = 1) ∧
    (recAt (fun _ => 0) 10 2 5 1).isBlocked = false ∧
    (recAt (fun _ => 0) 10 2 5 1).totalHits = 2 ∧
    (recAt (fun _ => 0) 10 2 5 2).isBlocked = true ∧
    (recAt (fun _ => 0) 10 2 5 2).timeToBlockExpire = 5 ∧
    (stateAfter (fun _ => 0) 10 2 5 3).blockTtl 0 = 5 := by
  have h := rate_limiter_window_blocks (fun _ => 0) 10 2 5
    (fun k hk => by norm_num) (by norm_num)
  exact ⟨h.1 0 (by norm_num), (h.1 1 (by norm_num)).1, (h.1 1 (by norm_num)).2,
    h.2.1, h.2.2.2.1, h.2.2.2.2.2.2⟩
